import Mathlib

/-!
Shallow embedding of the LookupTable repository (LookupTableND / LookupTable2D /
LookupTable3D and utils.h) for verifying its natural-language specification.

Modelling conventions:
* C++ `double` is modelled as `ℚ` with exact arithmetic;
  `std::numeric_limits<double>::epsilon()` becomes the rational `2 ^ 52`-th.
* A method that can `throw` is modelled as a function into `Except TableError _`;
  each `throw` site of the source gets its own `TableError` constructor, and a
  checked `std::vector::at` access out of range maps to `TableError.atOutOfRange`
  (the `std::out_of_range` exception).
* Mutable out-parameters become returned values; `nullptr`-argument checks of the
  source cannot fire in the embedding (a caller always supplies the locations)
  and are therefore dropped.
* The `while` loop of the binary search (`GetApproxPos`) is given a structural
  fuel argument.  The C++ loop strictly decreases `r - l`, which starts at
  `axis.length`, so the fuel `axis.length + 1` supplied at the call site is
  never exhausted; the fuel-exhaustion branch is an unreachable error.
-/

set_option autoImplicit false

/- The Batteries rational-number operations are irreducible by default, which
blocks `decide` on concrete rational computations; restore reducibility for
this file. -/
attribute [local semireducible] Rat.add Rat.sub Rat.mul Rat.inv

deriving instance DecidableEq for Except

namespace LookupTable

/-! ## utils.h -/

/-- `std::numeric_limits<double>::epsilon()` for IEEE-754 doubles. -/
def machEps : ℚ := 1 / 2 ^ 52

/-- `utils::IsApproxEqual` (utils.h:89-98): `diff = |A - B|`, `max = std::max(A, B)`
(the *signed* maximum, exactly as in the source), `eps = max * epsilon * 5.0`,
returning `diff <= eps`. -/
def IsApproxEqual (A B : ℚ) : Bool :=
  let diff := |A - B|
  let mx := max A B
  let eps := mx * machEps * 5
  diff ≤ eps

/-- `utils::Lerp` (utils.h:104-109). -/
def Lerp (aValA aValB aPercentProgress : ℚ) : ℚ :=
  aValA + aPercentProgress * (aValB - aValA)

/-- `utils::ILerp` (utils.h:114-124): inverse linear interpolation, degenerating
to `0` when the two endpoints are approximately equal. -/
def ILerp (aValA aValB aValToCompare : ℚ) : ℚ :=
  if IsApproxEqual aValA aValB then 0
  else (aValToCompare - aValA) / (aValB - aValA)

/-! ## Error conditions

One constructor per throw site of the source (plus `atOutOfRange` for checked
`std::vector::at` accesses and `frontOnEmpty` for `std::vector::front` on an
empty vector, which is undefined behaviour in C++ and modelled as an error). -/

inductive TableError where
  /-- "Unable to operate on invalid table." -/
  | invalidTable
  /-- "Must provide one input per independent variable." -/
  | arityMismatch
  /-- "Input i of value v out of bounds[0, n-1]." (LookupIndexAt) -/
  | outOfBounds
  /-- "Calculated index out of bounds." (defensive check in LookupIndexAt) -/
  | indexOutOfBounds
  /-- "Invalid dimension (d) provided to n-dimensional table." -/
  | invalidDimension
  /-- "Data vector is empty." -/
  | emptyData
  /-- "Value given is outside of data bounds. (Extrapolation not supported.)" -/
  | outOfDomain
  /-- `std::out_of_range` thrown by a checked `std::vector::at` access. -/
  | atOutOfRange
  /-- `std::vector::front` on an empty vector (undefined behaviour in C++). -/
  | frontOnEmpty
  /-- unreachable fuel exhaustion of the modelled binary-search loop. -/
  | loopLimit
  deriving DecidableEq, Repr

/-- `std::vector::at`: checked element access. -/
def vecAt {α : Type} (xs : List α) (i : ℕ) : Except TableError α :=
  match xs.get? i with
  | some x => .ok x
  | none => .error .atOutOfRange

/-! ## Table state (LookupTableND data members) -/

/-- The data members of `zjld::LookupTableND`: `_indepData`, `_depData`, `_valid`. -/
structure Table where
  indep : List (List ℚ)
  dep : List ℚ
  valid : Bool
  deriving DecidableEq, Repr

/-- `LookupTableND::ResetData` / the default-constructed state: both stores empty,
`_valid = false`. -/
def emptyTable : Table := ⟨[], [], false⟩

/-- The adjacent-pair strict-increase check of
`LookupTableND::CheckMonotonicallyIncreasing`'s inner loop
(`data.at(j-1) >= data.at(j)` rejects). -/
def monoIncr : List ℚ → Bool
  | a :: b :: rest => decide (a < b) && monoIncr (b :: rest)
  | _ => true

/-- `LookupTableND::CheckMonotonicallyIncreasing` (LookupTableND.cpp:364-374):
checks the first `size - 1` arrays (the independent axes) only. -/
def CheckMonotonicallyIncreasing (aFullDataSet : List (List ℚ)) : Bool :=
  aFullDataSet.dropLast.all monoIncr

/-- `LookupTableND::IsValidSourceData` (full-set overload, LookupTableND.cpp:64-77):
at least 3 arrays (2 axes + dependent data), dependent size equal to the product
of the axis sizes, and monotonically increasing axes. -/
def IsValidSourceData (aFullDataSet : List (List ℚ)) : Bool :=
  if aFullDataSet.length < 3 then false
  else
    decide ((aFullDataSet.dropLast.map List.length).prod
              = (aFullDataSet.getLastD []).length)
      && CheckMonotonicallyIncreasing aFullDataSet

/-- `LookupTableND::PopulateData` (full-set overload, LookupTableND.cpp:89-100):
returns the new table state together with the returned `bool` (`_valid`). -/
def PopulateData (aFullDataSet : List (List ℚ)) : Table × Bool :=
  if IsValidSourceData aFullDataSet then
    (⟨aFullDataSet.dropLast, aFullDataSet.getLastD [], true⟩, true)
  else
    (emptyTable, false)

/-- `LookupTableND::PopulateData` (separate axes + dependent data overload,
LookupTableND.cpp:102-108): appends and delegates. -/
def PopulateDataSep (aIndepDataSet : List (List ℚ)) (aDepData : List ℚ) :
    Table × Bool :=
  PopulateData (aIndepDataSet ++ [aDepData])

/-! ## Lookup by indices -/

/-- The accumulation loop of `LookupTableND::LookupIndexAt`
(LookupTableND.cpp:120-129), walking the inputs together with the axis lengths,
threading `idx` and `prod`; a per-axis out-of-range input throws. The
axes-exhausted case corresponds to `_indepData.at(i)` past the end, which cannot
occur after the arity check. -/
def idxLoop : List ℕ → List ℕ → ℕ → ℕ → Except TableError ℕ
  | [], _, idx, _ => .ok idx
  | i :: is, n :: ns, idx, prod =>
    if n ≤ i then .error .outOfBounds
    else idxLoop is ns (idx + i * prod) (prod * n)
  | _ :: _, [], _, _ => .error .atOutOfRange

/-- `LookupTableND::LookupIndexAt` (LookupTableND.cpp:114-134). -/
def LookupIndexAt (t : Table) (aInputs : List ℕ) : Except TableError ℕ :=
  if t.valid = false then .error .invalidTable
  else if aInputs.length ≠ t.indep.length then .error .arityMismatch
  else do
    let idx ← idxLoop aInputs (t.indep.map List.length) 0 1
    if t.dep.length ≤ idx then .error .indexOutOfBounds
    else pure idx

/-- `LookupTableND::LookupByIndices` (LookupTableND.cpp:162-167). -/
def LookupByIndices (t : Table) (aIndexInputs : List ℕ) : Except TableError ℚ :=
  if t.valid = false then .error .invalidTable
  else do
    let idx ← LookupIndexAt t aIndexInputs
    vecAt t.dep idx

/-! ## Position resolution (GetApproxPos / GetPositionInfo) -/

/-- The `while (l < m && m < r)` binary-search loop of
`LookupTableND::GetApproxPos` (LookupTableND.cpp:337-350), with `m = (l + r) / 2`
recomputed at entry exactly as at the loop head.  `fuel` bounds the iteration
count; the source loop strictly decreases `r - l`, so the
`axis.length + 1` fuel supplied by `GetApproxPos` is never exhausted. -/
def searchLoop (axis : List ℚ) (v : ℚ) : ℕ → ℕ → ℕ → Except TableError (ℕ × ℕ)
  | 0, _, _ => .error .loopLimit
  | fuel + 1, l, r =>
    let m := (l + r) / 2
    if l < m ∧ m < r then
      match vecAt axis m with
      | .error e => .error e
      | .ok dm =>
        if IsApproxEqual v dm then .ok (m, m)
        else if v < dm then searchLoop axis v fuel l m
        else searchLoop axis v fuel m r
    else .ok (l, r)

/-- `LookupTableND::GetApproxPos` (LookupTableND.cpp:318-357).  The final
out-parameter is the returned rational position.  Note `data.at(r)` in the
interpolation branch: when the loop ends with `r = data.size()` this is the
`std::out_of_range` failure. -/
def GetApproxPos (t : Table) (aDimension : ℕ) (aValue : ℚ) :
    Except TableError ℚ :=
  if t.valid = false then .error .invalidTable
  else if t.indep.length ≤ aDimension then .error .invalidDimension
  else do
    let data ← vecAt t.indep aDimension
    if data.isEmpty then .error .emptyData
    else do
      let front ← vecAt data 0
      let back ← vecAt data (data.length - 1)
      if aValue < front ∨ back < aValue then .error .outOfDomain
      else do
        let lr ← searchLoop data aValue (data.length + 1) 0 data.length
        if lr.1 = lr.2 then pure (lr.1 : ℚ)
        else do
          let dl ← vecAt data lr.1
          let dr ← vecAt data lr.2
          pure ((lr.1 : ℚ) + ILerp dl dr aValue)

/-- `static_cast<size_t>` applied to a nonnegative double: truncation toward
zero (negative values are undefined behaviour in C++; all reachable casts in
the source are nonnegative, where truncation and floor agree). -/
def toSizeT (q : ℚ) : ℕ := ⌊q⌋.toNat

/-- `LookupTableND::GetPositionInfo` (LookupTableND.cpp:292-316): splits the
approximate position into low index and percent progress, with the last-index
edge correction. -/
def GetPositionInfo (t : Table) (aDimension : ℕ) (aValue : ℚ) :
    Except TableError (ℕ × ℚ) :=
  if t.valid = false then .error .invalidTable
  else do
    let pos ← GetApproxPos t aDimension aValue
    let lowIdx := toSizeT pos
    let prc := pos - (lowIdx : ℚ)
    let axis ← vecAt t.indep aDimension
    if 0 < lowIdx ∧ lowIdx = axis.length - 1 then
      pure (lowIdx - 1, prc + 1)
    else
      pure (lowIdx, prc)

/-! ## Lookup by values (the N-dimensional interpolation) -/

/-- The first loop of `LookupTableND::LookupByValues`
(LookupTableND.cpp:203-206): one `GetPositionInfo` call per dimension, reading
input `i` through `aValueInputs.at(i)`. `cnt` counts the remaining dimensions
(`kInSize` at the initial call, with `i = 0`). -/
def posLoop (t : Table) (vs : List ℚ) : ℕ → ℕ → Except TableError (List (ℕ × ℚ))
  | _, 0 => pure []
  | i, cnt + 1 => do
    let v ← vecAt vs i
    let info ← GetPositionInfo t i v
    let rest ← posLoop t vs (i + 1) cnt
    pure (info :: rest)

/-- One pass of the bit-flip inner loop of `LookupTableND::LookupByValues`
(LookupTableND.cpp:217-224) on the *reversed* bit vector: the source walks `k`
from the last dimension down, flipping bits until one turns `true`; this is
binary increment with the last dimension as least-significant bit. -/
def flipLSB : List Bool → List Bool
  | [] => []
  | b :: rest => if b then false :: flipLSB rest else true :: rest

/-- The bit state after one iteration of the corner-enumeration loop. -/
def nextBits (bits : List Bool) : List Bool :=
  (flipLSB bits.reverse).reverse

/-- `inps.at(k) = lowIdxs.at(k) + static_cast<size_t>(bits.at(k))`
(LookupTableND.cpp:223). -/
def inpsOf (lows : List ℕ) (bits : List Bool) : List ℕ :=
  List.zipWith (fun low b => low + (if b then 1 else 0)) lows bits

/-- The corner-enumeration loop of `LookupTableND::LookupByValues`
(LookupTableND.cpp:211-225): `cnt` iterations (`comboCount = 2 ^ D` at the
initial call, with all bits `false` so that the first inputs are the low
indices), each looking up one corner and advancing the binary counter. -/
def cornersLoop (t : Table) (lows : List ℕ) :
    ℕ → List Bool → Except TableError (List ℚ)
  | 0, _ => pure []
  | cnt + 1, bits => do
    let v ← LookupByIndices t (inpsOf lows bits)
    let rest ← cornersLoop t lows cnt (nextBits bits)
    pure (v :: rest)

/-- The inner pairwise-interpolation loop of `LookupTableND::LookupByValues`
(LookupTableND.cpp:229-232): `vals.at(j/2) = Lerp(vals.at(j-1), vals.at(j), p)`
for `j = 1, 3, 5, ...` condenses adjacent pairs into the front of the vector. -/
def pairLerp (p : ℚ) : List ℚ → List ℚ
  | a :: b :: rest => Lerp a b p :: pairLerp p rest
  | xs => xs

/-- `LookupTableND::LookupByValues` (LookupTableND.cpp:194-239).  The collapse
rounds use `prcPrgs.at(prcPrgs.size() - i - 1)`, i.e. the percent-progress list
is consumed from the back; `List.foldr pairLerp` applies the last progress
first.  `vals.front()` on an empty vector is undefined behaviour, modelled as
`frontOnEmpty`. -/
def LookupByValues (t : Table) (aValueInputs : List ℚ) : Except TableError ℚ :=
  if t.valid = false then .error .invalidTable
  else do
    let infos ← posLoop t aValueInputs 0 t.indep.length
    let lows := infos.map Prod.fst
    let prcs := infos.map Prod.snd
    let vals ← cornersLoop t lows (2 ^ t.indep.length)
                (List.replicate t.indep.length false)
    match prcs.foldr pairLerp vals with
    | x :: _ => pure x
    | [] => .error .frontOnEmpty

/-! ## Dual reporting forms (Query* wrappers)

The boolean + out-parameter form catches the exception and reports `false`,
leaving the value location unwritten; modelled as the `bool` together with what
was written to `*outValue` and `*outErrMsg`. -/

/-- The `try { *outValue = ...; } catch { *outErrMsg = ...; return false; }`
wrapper shared by every boolean-form query. -/
def queryOf {α : Type} (r : Except TableError α) :
    Bool × Option α × Option TableError :=
  match r with
  | .ok v => (true, some v, none)
  | .error e => (false, none, some e)

/-- `LookupTableND::QueryByValues` (boolean form, LookupTableND.cpp:240-254). -/
def QueryByValuesB (t : Table) (vs : List ℚ) :
    Bool × Option ℚ × Option TableError :=
  queryOf (LookupByValues t vs)

/-- `LookupTableND::QueryByValues` (`Result<double>` form,
LookupTableND.cpp:255-263). -/
def QueryByValuesR (t : Table) (vs : List ℚ) : Except TableError ℚ :=
  LookupByValues t vs

/-! ## LookupTable2D (LookupTable2D.cpp) -/

/-- `LookupTable2D::LookupByIndices` (two-index form, LookupTable2D.cpp:67-71):
delegates to the N-dimensional lookup. -/
def LookupByIndices2 (t : Table) (aDim1Index aDim2Index : ℕ) :
    Except TableError ℚ :=
  LookupByIndices t [aDim1Index, aDim2Index]

/-- `LookupTable2D::LookupByValues` (two-value form, LookupTable2D.cpp:88-113):
the generic algorithm unrolled into the four named corners. -/
def LookupByValues2 (t : Table) (aDim1Value aDim2Value : ℚ) :
    Except TableError ℚ :=
  if t.valid = false then .error .invalidTable
  else do
    let p0 ← GetPositionInfo t 0 aDim1Value
    let p1 ← GetPositionInfo t 1 aDim2Value
    let vLL ← LookupByIndices2 t p0.1 p1.1
    let vLH ← LookupByIndices2 t p0.1 (p1.1 + 1)
    let vHL ← LookupByIndices2 t (p0.1 + 1) p1.1
    let vHH ← LookupByIndices2 t (p0.1 + 1) (p1.1 + 1)
    pure (Lerp (Lerp vLL vLH p1.2) (Lerp vHL vHH p1.2) p0.2)

/-- `LookupTable2D::QueryByValues` (two-scalar boolean form,
LookupTable2D.cpp:120-135).  The source body is
`*outValue = LookupByIndices(aDim1Value, aDim2Value);` — it calls the
*index* lookup, implicitly converting both doubles to `size_t`. -/
def QueryByValues2B (t : Table) (aDim1Value aDim2Value : ℚ) :
    Bool × Option ℚ × Option TableError :=
  queryOf (LookupByIndices2 t (toSizeT aDim1Value) (toSizeT aDim2Value))

/-- `LookupTable2D::QueryByValues` (two-scalar `Result<double>` form,
LookupTable2D.cpp:151-160): wraps `LookupByValues`. -/
def QueryByValues2R (t : Table) (aDim1Value aDim2Value : ℚ) :
    Except TableError ℚ :=
  LookupByValues2 t aDim1Value aDim2Value

/-! ## LookupTable3D (LookupTable3D.cpp) -/

/-- `LookupTable3D::LookupByIndices` (three-index form,
LookupTable3D.cpp:73-78). -/
def LookupByIndices3 (t : Table) (aDim1Index aDim2Index aDim3Index : ℕ) :
    Except TableError ℚ :=
  LookupByIndices t [aDim1Index, aDim2Index, aDim3Index]

/-- `LookupTable3D::LookupByValues` (three-value form,
LookupTable3D.cpp:97-132): the generic algorithm unrolled into the eight named
corners. -/
def LookupByValues3 (t : Table) (aDim1Value aDim2Value aDim3Value : ℚ) :
    Except TableError ℚ :=
  if t.valid = false then .error .invalidTable
  else do
    let p0 ← GetPositionInfo t 0 aDim1Value
    let p1 ← GetPositionInfo t 1 aDim2Value
    let p2 ← GetPositionInfo t 2 aDim3Value
    let vLLL ← LookupByIndices3 t p0.1 p1.1 p2.1
    let vLLH ← LookupByIndices3 t p0.1 p1.1 (p2.1 + 1)
    let vLHL ← LookupByIndices3 t p0.1 (p1.1 + 1) p2.1
    let vLHH ← LookupByIndices3 t p0.1 (p1.1 + 1) (p2.1 + 1)
    let vHLL ← LookupByIndices3 t (p0.1 + 1) p1.1 p2.1
    let vHLH ← LookupByIndices3 t (p0.1 + 1) p1.1 (p2.1 + 1)
    let vHHL ← LookupByIndices3 t (p0.1 + 1) (p1.1 + 1) p2.1
    let vHHH ← LookupByIndices3 t (p0.1 + 1) (p1.1 + 1) (p2.1 + 1)
    pure (Lerp
      (Lerp (Lerp vLLL vLLH p2.2) (Lerp vLHL vLHH p2.2) p1.2)
      (Lerp (Lerp vHLL vHLH p2.2) (Lerp vHHL vHHH p2.2) p1.2)
      p0.2)

/-- `LookupTable3D::QueryByValues` (three-scalar boolean form,
LookupTable3D.cpp:139-155).  As in the 2D case, the source body calls
`LookupByIndices` with the doubles implicitly converted to `size_t`. -/
def QueryByValues3B (t : Table) (aDim1Value aDim2Value aDim3Value : ℚ) :
    Bool × Option ℚ × Option TableError :=
  queryOf (LookupByIndices3 t (toSizeT aDim1Value) (toSizeT aDim2Value)
            (toSizeT aDim3Value))

/-- `LookupTable3D::QueryByValues` (three-scalar `Result<double>` form,
LookupTable3D.cpp:171-181): wraps `LookupByValues`. -/
def QueryByValues3R (t : Table) (aDim1Value aDim2Value aDim3Value : ℚ) :
    Except TableError ℚ :=
  LookupByValues3 t aDim1Value aDim2Value aDim3Value

/-! ## Concrete tables used by the scenario claims -/

/-- The specification's 2-axis scenario data: `x = [1,2,3]`, `y = [10,20]`,
dependent data `[100,200,300,400,500,600]`, `x` fastest-varying. -/
def scen2ds : List (List ℚ) :=
  [[1, 2, 3], [10, 20], [100, 200, 300, 400, 500, 600]]

/-- The populated scenario table. -/
def scen2 : Table := (PopulateData scen2ds).1

/-- A 2×2×2 three-axis table: all axes `[0, 1]`, dependent data `[0,…,7]`
with axis 0 fastest-varying. -/
def scen3ds : List (List ℚ) :=
  [[0, 1], [0, 1], [0, 1], [0, 1, 2, 3, 4, 5, 6, 7]]

/-- The populated 2×2×2 table. -/
def scen3 : Table := (PopulateData scen3ds).1

/-- A data set whose first axis has a single element: passes validation
(`1 * 2 = 2`). -/
def degDs : List (List ℚ) := [[5], [1, 2], [10, 20]]

/-- The populated degenerate-axis table. -/
def degTbl : Table := (PopulateData degDs).1

/-- A table whose first axis ends in a negative value: axes `[-2,-1]` and
`[10,20]`, dependent data `[1,2,3,4]`. -/
def negDs : List (List ℚ) := [[-2, -1], [10, 20], [1, 2, 3, 4]]

/-- The populated negative-axis table. -/
def negTbl : Table := (PopulateData negDs).1

/-! ## Specification-side definitions and invariants -/

/-- The flat offset computed by `LookupIndexAt`'s accumulation loop, in closed
Horner form: `flatten (i :: is) (n :: ns) = i + n * flatten is ns`. -/
def flatten : List ℕ → List ℕ → ℕ
  | i :: is, n :: ns => i + n * flatten is ns
  | _, _ => 0

/-- The specification's mixed-radix row-major formula, written exactly as in
the spec: `offset = Σ indices[i] * Π_{j<i} axisLength(j)` (axis 0 fastest
varying). -/
def specFlatOffset (is lens : List ℕ) : ℕ :=
  ∑ k ∈ Finset.range is.length,
    is.getD k 0 * ∏ j ∈ Finset.range k, lens.getD j 0

/-- The §3 invariants established by a successful population that the lookup
claims rely on: the table is marked valid and the dependent array's length is
exactly the product of the axis lengths. -/
def Table.WF (t : Table) : Prop :=
  t.valid = true ∧ t.dep.length = (t.indep.map List.length).prod

/-! ## Basic lemmas about the `Except` monad plumbing -/

theorem ok_bind {α β : Type} (a : α) (f : α → Except TableError β) :
    (Except.ok a : Except TableError α) >>= f = f a := rfl

theorem error_bind {α β : Type} (e : TableError) (f : α → Except TableError β) :
    (Except.error e : Except TableError α) >>= f = .error e := rfl

theorem pure_eq_ok {α : Type} (a : α) : (pure a : Except TableError α) = .ok a := rfl

/-! ## Theorems -/

/-- C1: for the 2-axis table with axes `x = [1,2,3]`, `y = [10,20]` and
dependent data `[100,…,600]` populated with `x` fastest-varying,
`LookupByValues`/`QueryByValues` returns exactly `200` at `(2, 10)`, exactly
`150` at `(1.5, 10)`, exactly `350` at `(2, 15)`, and fails with the
out-of-domain condition at `(0.5, 10)`. -/
theorem c1_two_axis_scenario :
    (PopulateData scen2ds).2 = true ∧
    LookupByValues scen2 [2, 10] = .ok 200 ∧
    QueryByValuesR scen2 [3/2, 10] = .ok 150 ∧
    QueryByValuesB scen2 [2, 15] = (true, some 350, none) ∧
    LookupByValues scen2 [1/2, 10] = .error .outOfDomain := by
  refine ⟨?_, ?_, ?_, ?_, ?_⟩ <;> decide

/-- C2 (code bug): the boolean-return form and the tagged-result form of the
two-scalar `QueryByValues` of the 2D and 3D tables do *not* agree: the boolean
form calls `LookupByIndices` with the double coordinates truncated to `size_t`
(LookupTable2D.cpp:128, LookupTable3D.cpp:148) instead of `LookupByValues`.
On the C1 table at `(1.5, 10)` the boolean form truncates to indices `(1, 10)`
and fails out-of-bounds while the result form interpolates `150`; on the 2×2×2
table at `(0.5, 0.5, 0.5)` the boolean form succeeds with the stored corner
value `0` while the result form interpolates `3.5`. -/
theorem c2_dual_form_divergence :
    QueryByValues2B scen2 (3/2) 10 = (false, none, some .outOfBounds) ∧
    QueryByValues2R scen2 (3/2) 10 = .ok 150 ∧
    QueryByValues3B scen3 (1/2) (1/2) (1/2) = (true, some 0, none) ∧
    QueryByValues3R scen3 (1/2) (1/2) (1/2) = .ok (7/2) := by
  refine ⟨?_, ?_, ?_, ?_⟩ <;> decide

/-- C3 (code bug): querying exactly at `axis.back` does *not* always succeed.
On the valid table with axes `[-2,-1]`, `[10,20]` and dependent data
`[1,2,3,4]`, the query `(-1, 10)` — exactly at the first axis's last value —
fails: `IsApproxEqual(-1, -1)` is `false` because the epsilon is scaled by the
*signed* maximum (negative here), so the binary search never takes its
exact-match branch, ends with `r = size`, and `data.at(r)` throws
`std::out_of_range`.  Queries exactly at `axis.front` and strictly outside the
bounds behave as claimed. -/
theorem c3_boundary_negative_back :
    (PopulateData negDs).2 = true ∧
    LookupByValues negTbl [-2, 10] = .ok 1 ∧
    LookupByValues negTbl [-5/2, 10] = .error .outOfDomain ∧
    LookupByValues negTbl [-1/2, 10] = .error .outOfDomain ∧
    LookupByValues negTbl [-1, 10] = .error .atOutOfRange := by
  refine ⟨?_, ?_, ?_, ?_, ?_⟩ <;> decide

/-- C6 counterexample: a lookup-by-values with an input tuple *longer* than the
table's dimension count does not fail — the generic `LookupByValues` never
checks arity and reads only the first `D` inputs, so the 2-dimensional C1 table
happily answers a 3-tuple query. -/
theorem c6_longer_tuple_succeeds :
    LookupByValues scen2 [2, 10, 999] = .ok 200 := by decide

/-- On the degenerate table, any first coordinate other than the single grid
value `5` is rejected as out of domain. -/
theorem degTbl_lookup_off (v0 : ℚ) (rest : List ℚ) (h : v0 < 5 ∨ 5 < v0) :
    LookupByValues degTbl (v0 :: rest) = .error .outOfDomain := by
  have hgap : GetApproxPos degTbl 0 v0 = .error .outOfDomain := by
    rw [show GetApproxPos degTbl 0 v0
          = if v0 < 5 ∨ 5 < v0 then Except.error TableError.outOfDomain
            else Except.error TableError.atOutOfRange from rfl, if_pos h]
  have hv : degTbl.valid = true := rfl
  simp [LookupByValues, posLoop, GetPositionInfo, vecAt, ok_bind, error_bind,
    pure_eq_ok, hgap, hv]

/-- C10: the data set `[[5], [1,2], [10,20]]`, whose first axis has a single
element, passes validation and populates a table with `valid = true`
(`1 * 2 = 2` matches the dependent size), yet *every* lookup-by-values query on
that table fails — a query exactly at the degenerate axis's only grid value `5`
runs the binary search on a one-element axis, which ends with `r = 1` and fails
on `data.at(1)`, and any other first coordinate is out of domain. -/
theorem c10_degenerate_axis :
    IsValidSourceData degDs = true ∧
    (PopulateData degDs).2 = true ∧
    degTbl.valid = true ∧
    ∀ vs : List ℚ, ∃ e, LookupByValues degTbl vs = .error e := by
  refine ⟨by decide, by decide, rfl, ?_⟩
  intro vs
  match vs with
  | [] => exact ⟨.atOutOfRange, rfl⟩
  | v0 :: rest =>
    rcases lt_trichotomy v0 5 with h | h | h
    · exact ⟨.outOfDomain, degTbl_lookup_off v0 rest (Or.inl h)⟩
    · subst h; exact ⟨.atOutOfRange, rfl⟩
    · exact ⟨.outOfDomain, degTbl_lookup_off v0 rest (Or.inr h)⟩

/-- The adjacent-pair check accepts a list exactly when it is strictly
increasing (chained `<` on adjacent elements). -/
theorem monoIncr_iff (l : List ℚ) : monoIncr l = true ↔ l.Chain' (· < ·) := by
  induction l with
  | nil => simp [monoIncr]
  | cons a t ih =>
    cases t with
    | nil => simp [monoIncr]
    | cons b t2 => simp [monoIncr, List.chain'_cons, ih, and_comm]

/-- `CheckMonotonicallyIncreasing` checks exactly the independent axes (all
arrays but the last). -/
theorem checkMono_iff (ds : List (List ℚ)) :
    CheckMonotonicallyIncreasing ds = true ↔
      ∀ ax ∈ ds.dropLast, ax.Chain' (· < ·) := by
  simp [CheckMonotonicallyIncreasing, List.all_eq_true, monoIncr_iff]

/-- Characterisation of `IsValidSourceData` in terms of the specification's
three conditions. -/
theorem isValid_iff (ds : List (List ℚ)) :
    IsValidSourceData ds = true ↔
      (2 ≤ ds.dropLast.length ∧ (∀ ax ∈ ds.dropLast, ax.Chain' (· < ·)) ∧
        (ds.getLastD []).length = (ds.dropLast.map List.length).prod) := by
  have hlen : ds.dropLast.length = ds.length - 1 := List.length_dropLast ds
  unfold IsValidSourceData
  by_cases h : ds.length < 3
  · simp only [if_pos h]
    constructor
    · intro hc; exact absurd hc (by simp)
    · rintro ⟨h2, -, -⟩; omega
  · simp only [if_neg h, Bool.and_eq_true, decide_eq_true_eq, checkMono_iff]
    constructor
    · rintro ⟨hp, hm⟩; exact ⟨by omega, hm, hp.symm⟩
    · rintro ⟨-, hm, hp⟩; exact ⟨hp.symm, hm⟩

/-- C4: `PopulateData` returns `true` and sets the table valid iff the
candidate has at least 2 independent axes, every axis is strictly increasing
(adjacent elements compared with strict `<`), and the dependent array's length
equals the product of the axis lengths; otherwise it returns `false` and
leaves both data stores empty with `valid = false` — never a
partially-populated state. -/
theorem c4_populate_atomic (ds : List (List ℚ)) :
    ((PopulateData ds).2 = (PopulateData ds).1.valid) ∧
    ((PopulateData ds).2 = true ↔
      (2 ≤ ds.dropLast.length ∧ (∀ ax ∈ ds.dropLast, ax.Chain' (· < ·)) ∧
        (ds.getLastD []).length = (ds.dropLast.map List.length).prod)) ∧
    ((PopulateData ds).2 = false → (PopulateData ds).1 = emptyTable) := by
  cases hval : IsValidSourceData ds with
  | true =>
    refine ⟨by simp [PopulateData, hval], ?_, by simp [PopulateData, hval]⟩
    rw [← isValid_iff, hval]
    simp [PopulateData, hval]
  | false =>
    refine ⟨by simp [PopulateData, hval, emptyTable], ?_,
      by simp [PopulateData, hval]⟩
    rw [← isValid_iff, hval]
    simp [PopulateData, hval]

/-- Witness for C4 at the invalid candidate `[[1], [1]]` (only one axis). -/
theorem c4_populate_atomic_witness :
    (PopulateData [[1], [1]]).2 = false ∧ (PopulateData [[1], [1]]).1 = emptyTable :=
  ⟨by decide, (c4_populate_atomic [[1], [1]]).2.2 (by decide)⟩

/-- C8 counterexample: the claim's characterisation
`IsApproxEqual a b = true ↔ |a-b| ≤ max (|a|) (|b|) * eps * 5` fails at
`a = b = -1`, where the code returns `false` (its epsilon is scaled by the
*signed* maximum `-1`, making the bound negative) although the claimed
absolute-value formula holds; in particular reflexivity fails. -/
theorem c8_not_reflexive_at_neg_one :
    IsApproxEqual (-1) (-1) = false ∧
    |(-1 : ℚ) - (-1)| ≤ max |(-1 : ℚ)| |(-1 : ℚ)| * machEps * 5 := by
  constructor <;> decide

/-- C8 (amended): `IsApproxEqual a b` returns `true` iff
`|a - b| ≤ max a b * eps * 5` where `max` is the *signed* maximum (not the
maximum of absolute values); consequently it is reflexive exactly on the
nonnegative rationals. -/
theorem c8_approx_amended :
    (∀ a b : ℚ, IsApproxEqual a b = true ↔ |a - b| ≤ max a b * machEps * 5) ∧
    (∀ a : ℚ, IsApproxEqual a a = true ↔ 0 ≤ a) := by
  constructor
  · intro a b
    simp [IsApproxEqual]
  · intro a
    simp only [IsApproxEqual, sub_self, abs_zero, max_self, decide_eq_true_eq]
    rw [mul_assoc]
    exact mul_nonneg_iff_of_pos_right (by norm_num [machEps])

/-- Witness for C8 (amended) at `a = 2` and `a = -2`. -/
theorem c8_approx_amended_witness :
    IsApproxEqual 2 2 = true ∧ IsApproxEqual (-2) (-2) = false := by
  constructor
  · exact (c8_approx_amended.2 2).mpr (by norm_num)
  · exact Bool.eq_false_iff.mpr
      (fun ht => absurd ((c8_approx_amended.2 (-2)).mp ht) (by norm_num))
/-- Under pointwise in-bounds inputs the accumulation loop succeeds and
computes the Horner-form offset. -/
theorem idxLoop_ok {is ns : List ℕ} (h : List.Forall₂ (· < ·) is ns) :
    ∀ idx prod : ℕ, idxLoop is ns idx prod = .ok (idx + prod * flatten is ns) := by
  induction h with
  | nil => intro idx prod; simp [idxLoop, flatten]
  | @cons a b as bs hab hrest ih =>
    intro idx prod
    rw [show idxLoop (a :: as) (b :: bs) idx prod
          = if b ≤ a then .error .outOfBounds
            else idxLoop as bs (idx + a * prod) (prod * b) from rfl,
        if_neg (by omega), ih]
    congr 1
    rw [flatten]
    ring

/-- The flat offset of in-bounds indices is below the product of the axis
lengths. -/
theorem flatten_lt {is ns : List ℕ} (h : List.Forall₂ (· < ·) is ns) :
    flatten is ns < ns.prod := by
  induction h with
  | nil => simp [flatten]
  | @cons a b as bs hab hrest ih =>
    rw [flatten, List.prod_cons]
    calc a + b * flatten as bs < b + b * flatten as bs := by omega
    _ = b * (flatten as bs + 1) := by ring
    _ ≤ b * bs.prod := Nat.mul_le_mul_left _ ih

/-- The Horner-form offset agrees with the specification's mixed-radix sum
when the index tuple and the length list have equal lengths. -/
theorem flatten_eq_spec : ∀ (is ns : List ℕ), is.length = ns.length →
    flatten is ns = specFlatOffset is ns := by
  intro is
  induction is with
  | nil => intro ns h; simp [flatten, specFlatOffset]
  | cons i is ih =>
    intro ns h
    cases ns with
    | nil => simp at h
    | cons n ns =>
      simp only [List.length_cons, Nat.add_right_cancel_iff] at h
      rw [show flatten (i :: is) (n :: ns) = i + n * flatten is ns from rfl,
          ih ns h]
      unfold specFlatOffset
      rw [List.length_cons, Finset.sum_range_succ']
      simp only [List.getD_cons_succ, List.getD_cons_zero, Finset.range_zero,
        Finset.prod_empty, mul_one]
      rw [Finset.mul_sum, add_comm]
      congr 1
      refine Finset.sum_congr rfl fun k _ => ?_
      rw [Finset.prod_range_succ']
      simp only [List.getD_cons_succ, List.getD_cons_zero]
      ring

/-- A checked access within bounds returns the element. -/
theorem vecAt_ok {α : Type} (xs : List α) (i : ℕ) (h : i < xs.length) :
    vecAt xs i = .ok (xs.get ⟨i, h⟩) := by
  unfold vecAt
  rw [List.get?_eq_getElem?, List.getElem?_eq_getElem h]
  rfl

/-- On a well-formed table, `LookupIndexAt` with in-bounds inputs of the right
arity returns the flat offset. -/
theorem LookupIndexAt_ok (t : Table) (hwf : t.WF) {is : List ℕ}
    (h : List.Forall₂ (· < ·) is (t.indep.map List.length)) :
    LookupIndexAt t is = .ok (flatten is (t.indep.map List.length)) := by
  have hlen : is.length = t.indep.length := by
    simpa using h.length_eq
  have hflt : flatten is (t.indep.map List.length) < t.dep.length := by
    rw [hwf.2]; exact flatten_lt h
  unfold LookupIndexAt
  rw [hwf.1]
  rw [if_neg (by simp), if_neg (by simp [hlen])]
  rw [idxLoop_ok h 0 1, ok_bind, if_neg (by omega), pure_eq_ok]
  simp

/-- With matching lengths the accumulation loop can only fail with the
out-of-bounds condition. -/
theorem idxLoop_err_shape : ∀ (is ns : List ℕ), is.length = ns.length →
    ∀ idx prod e, idxLoop is ns idx prod = .error e → e = .outOfBounds := by
  intro is
  induction is with
  | nil =>
    intro ns h idx prod e he
    cases ns with
    | nil => simp [idxLoop] at he
    | cons => simp at h
  | cons i is ih =>
    intro ns h idx prod e he
    cases ns with
    | nil => simp at h
    | cons n ns =>
      simp only [List.length_cons, Nat.add_right_cancel_iff] at h
      rw [show idxLoop (i :: is) (n :: ns) idx prod
            = if n ≤ i then .error .outOfBounds
              else idxLoop is ns (idx + i * prod) (prod * n) from rfl] at he
      by_cases hni : n ≤ i
      · rw [if_pos hni] at he
        exact (Except.error.inj he).symm
      · rw [if_neg hni] at he
        exact ih ns h _ _ e he

/-- The accumulation loop fails with the out-of-bounds condition exactly when
some input reaches its axis length. -/
theorem idxLoop_oob : ∀ (is ns : List ℕ), is.length = ns.length →
    ∀ idx prod,
    (idxLoop is ns idx prod = .error .outOfBounds ↔
      ∃ p ∈ is.zip ns, p.2 ≤ p.1) := by
  intro is
  induction is with
  | nil =>
    intro ns h idx prod
    cases ns with
    | nil => simp [idxLoop]
    | cons => simp at h
  | cons i is ih =>
    intro ns h idx prod
    cases ns with
    | nil => simp at h
    | cons n ns =>
      simp only [List.length_cons, Nat.add_right_cancel_iff] at h
      rw [show idxLoop (i :: is) (n :: ns) idx prod
            = if n ≤ i then .error .outOfBounds
              else idxLoop is ns (idx + i * prod) (prod * n) from rfl]
      by_cases hni : n ≤ i
      · rw [if_pos hni]
        exact iff_of_true rfl ⟨(i, n), by simp, hni⟩
      · rw [if_neg hni, ih ns h]
        simp only [List.zip_cons_cons, List.mem_cons, exists_eq_or_imp]
        simp [hni]

/-- C5: on every well-formed table, for every index tuple of the right arity
with every index below its axis length, `LookupIndexAt` returns exactly the
specification's mixed-radix offset `Σ indices[i] * Π_{j<i} axisLength(j)`
(axis 0 fastest-varying), `LookupByIndices` returns the dependent value stored
at that offset (a pure read — the embedding is a function of the table state),
and `LookupIndexAt` fails with the out-of-bounds condition exactly when some
index reaches its axis length. -/
theorem c5_lookup_by_indices (t : Table) (hwf : t.WF) (is : List ℕ) :
    (List.Forall₂ (· < ·) is (t.indep.map List.length) →
      LookupIndexAt t is = .ok (specFlatOffset is (t.indep.map List.length)) ∧
      ∃ hlt : specFlatOffset is (t.indep.map List.length) < t.dep.length,
        LookupByIndices t is
          = .ok (t.dep.get ⟨specFlatOffset is (t.indep.map List.length), hlt⟩)) ∧
    (is.length = t.indep.length →
      (LookupIndexAt t is = .error .outOfBounds ↔
        ∃ p ∈ is.zip (t.indep.map List.length), p.2 ≤ p.1)) := by
  constructor
  · intro h
    have hlen : is.length = (t.indep.map List.length).length := h.length_eq
    have hspec := flatten_eq_spec is (t.indep.map List.length) (by simpa using hlen)
    have hok := LookupIndexAt_ok t hwf h
    rw [hspec] at hok
    have hflt : specFlatOffset is (t.indep.map List.length) < t.dep.length := by
      rw [hwf.2, ← hspec]; exact flatten_lt h
    refine ⟨hok, hflt, ?_⟩
    unfold LookupByIndices
    rw [hwf.1]
    rw [if_neg (by simp), hok, ok_bind, vecAt_ok t.dep _ hflt]
  · intro hlen
    have hlen2 : is.length = (t.indep.map List.length).length := by simpa using hlen
    unfold LookupIndexAt
    rw [hwf.1, if_neg (by simp), if_neg (by simp [hlen])]
    cases hL : idxLoop is (t.indep.map List.length) 0 1 with
    | ok v =>
      have hex : ¬ ∃ p ∈ is.zip (t.indep.map List.length), p.2 ≤ p.1 := by
        intro hc
        have hcontra := (idxLoop_oob is _ hlen2 0 1).mpr hc
        rw [hL] at hcontra
        exact Except.noConfusion hcontra
      refine iff_of_false ?_ hex
      rw [ok_bind]
      by_cases hd : t.dep.length ≤ v
      · rw [if_pos hd]; intro he; simp at he
      · rw [if_neg hd]; intro he; simp [pure_eq_ok] at he
    | error e =>
      have he := idxLoop_err_shape is _ hlen2 0 1 e hL
      subst he
      exact iff_of_true (by rw [error_bind]) ((idxLoop_oob is _ hlen2 0 1).mp hL)

/-- Witness for C5 on the C1 table at indices `(1, 0)`. -/
theorem c5_witness :
    List.Forall₂ (· < ·) [1, 0] (scen2.indep.map List.length) ∧
    LookupIndexAt scen2 [1, 0]
      = .ok (specFlatOffset [1, 0] (scen2.indep.map List.length)) := by
  have hf : List.Forall₂ (· < ·) [1, 0] (scen2.indep.map List.length) := by
    constructor
    · norm_num
    constructor
    · norm_num
    constructor
  exact ⟨hf, ((c5_lookup_by_indices scen2 ⟨rfl, rfl⟩ [1, 0]).1 hf).1⟩

/-- C9: on every table satisfying the stored invariant
`len(values) = Π axisLength(i)`, in-bounds indices of the right arity give a
flat offset strictly below the dependent array's length, so the defensive
"Calculated index out of bounds" branch of `LookupIndexAt` is unreachable. -/
theorem c9_defensive_unreachable (t : Table) (hwf : t.WF) (is : List ℕ)
    (h : List.Forall₂ (· < ·) is (t.indep.map List.length)) :
    specFlatOffset is (t.indep.map List.length) < t.dep.length ∧
    LookupIndexAt t is ≠ .error .indexOutOfBounds := by
  have hspec := flatten_eq_spec is (t.indep.map List.length)
    (by simpa using h.length_eq)
  constructor
  · rw [hwf.2, ← hspec]; exact flatten_lt h
  · rw [LookupIndexAt_ok t hwf h]
    simp

/-- Witness for C9 on the C1 table at indices `(2, 1)`. -/
theorem c9_witness :
    specFlatOffset [2, 1] (scen2.indep.map List.length) < scen2.dep.length ∧
    LookupIndexAt scen2 [2, 1] ≠ .error .indexOutOfBounds := by
  refine c9_defensive_unreachable scen2 ⟨rfl, rfl⟩ [2, 1] ?_
  constructor
  · norm_num
  constructor
  · norm_num
  constructor
/-- A checked access past the end fails. -/
theorem vecAt_none {α : Type} (xs : List α) (i : ℕ) (h : xs.length ≤ i) :
    vecAt xs i = .error .atOutOfRange := by
  unfold vecAt
  rw [List.get?_eq_getElem?, List.getElem?_eq_none h]

/-- A checked access below the truncation point ignores the truncation. -/
theorem vecAt_take {α : Type} (xs : List α) (D i : ℕ) (h : i < D) :
    vecAt (xs.take D) i = vecAt xs i := by
  unfold vecAt
  rw [List.get?_eq_getElem?, List.get?_eq_getElem?, List.getElem?_take_of_lt h]

/-- If the input list is exhausted before the requested dimensions are, the
position loop fails. -/
theorem posLoop_short (t : Table) (vs : List ℚ) :
    ∀ (cnt i : ℕ), vs.length < i + cnt → i ≤ vs.length →
      ∃ e, posLoop t vs i cnt = .error e := by
  intro cnt
  induction cnt with
  | zero => intro i h1 h2; exact absurd h1 (by omega)
  | succ cnt ih =>
    intro i h1 h2
    by_cases hi : i = vs.length
    · subst hi
      exact ⟨.atOutOfRange, by
        simp [posLoop, vecAt_none vs vs.length le_rfl, error_bind]⟩
    · have hi2 : i < vs.length := by omega
      cases hg : GetPositionInfo t i (vs.get ⟨i, hi2⟩) with
      | error e =>
        refine ⟨e, ?_⟩
        rw [show (vs.get ⟨i, hi2⟩) = vs[i] from rfl] at hg
        simp [posLoop, vecAt_ok vs i hi2, ok_bind, hg, error_bind]
      | ok p =>
        obtain ⟨e, he⟩ := ih (i + 1) (by omega) (by omega)
        refine ⟨e, ?_⟩
        rw [show (vs.get ⟨i, hi2⟩) = vs[i] from rfl] at hg
        simp [posLoop, vecAt_ok vs i hi2, ok_bind, hg, he, error_bind]

/-- The position loop reads the inputs only below `i + cnt`. -/
theorem posLoop_take (t : Table) (vs : List ℚ) (D : ℕ) :
    ∀ (cnt i : ℕ), i + cnt ≤ D →
      posLoop t vs i cnt = posLoop t (vs.take D) i cnt := by
  intro cnt
  induction cnt with
  | zero => intro i h; rfl
  | succ cnt ih =>
    intro i h
    have hv := vecAt_take vs D i (by omega)
    have hrest := ih (i + 1) (by omega)
    simp only [posLoop, hv, hrest]

/-- C6 (amended): lookup-by-indices fails with the arity condition on *any*
tuple whose length differs from the dimension count, and lookup-by-values
fails when the tuple is *shorter* than the dimension count; but a *longer*
tuple is not rejected — the generic `LookupByValues` reads only the first `D`
inputs, so its result equals the result on the truncated tuple. -/
theorem c6_arity_amended :
    (∀ (t : Table) (idxs : List ℕ), t.valid = true →
      idxs.length ≠ t.indep.length →
      LookupIndexAt t idxs = .error .arityMismatch) ∧
    (∀ (t : Table) (vs : List ℚ), vs.length < t.indep.length →
      ∃ e, LookupByValues t vs = .error e) ∧
    (∀ (t : Table) (vs : List ℚ), t.indep.length ≤ vs.length →
      LookupByValues t vs = LookupByValues t (vs.take t.indep.length)) := by
  refine ⟨?_, ?_, ?_⟩
  · intro t idxs hval hlen
    unfold LookupIndexAt
    rw [hval, if_neg (by simp), if_pos hlen]
  · intro t vs hlen
    cases hval : t.valid with
    | false => exact ⟨.invalidTable, by simp [LookupByValues, hval]⟩
    | true =>
      obtain ⟨e, he⟩ := posLoop_short t vs t.indep.length 0 (by omega) (by omega)
      exact ⟨e, by simp [LookupByValues, hval, he, error_bind]⟩
  · intro t vs hlen
    unfold LookupByValues
    rw [posLoop_take t vs t.indep.length t.indep.length 0 (by omega)]

/-- Witness for C6 (amended) on the C1 table. -/
theorem c6_arity_amended_witness :
    LookupIndexAt scen2 [1] = .error .arityMismatch ∧
    (∃ e, LookupByValues scen2 [2] = .error e) ∧
    LookupByValues scen2 [2, 10, 999]
      = LookupByValues scen2 ([2, 10, 999].take scen2.indep.length) :=
  ⟨c6_arity_amended.1 scen2 [1] rfl (by decide),
   c6_arity_amended.2.1 scen2 [2] (by decide),
   c6_arity_amended.2.2 scen2 [2, 10, 999] (by decide)⟩

/-- C7: for every 2-axis table the unrolled `LookupTable2D::LookupByValues`
returns exactly the same result as the generic N-dimensional algorithm on the
same inputs, and likewise for every 3-axis table and
`LookupTable3D::LookupByValues` — for all query values, in-domain or not, and
whether or not the table is valid.  The two sides perform the identical
sequence of position resolutions, corner lookups and pairwise `Lerp`
operations, so in the C++ code the IEEE-754 results are bit-identical. -/
theorem c7_unrolled_equiv :
    (∀ (t : Table) (v0 v1 : ℚ), t.indep.length = 2 →
      LookupByValues2 t v0 v1 = LookupByValues t [v0, v1]) ∧
    (∀ (t : Table) (v0 v1 v2 : ℚ), t.indep.length = 3 →
      LookupByValues3 t v0 v1 v2 = LookupByValues t [v0, v1, v2]) := by
  constructor
  · intro t v0 v1 hD
    cases hval : t.valid with
    | false => simp [LookupByValues2, LookupByValues, hval]
    | true =>
      unfold LookupByValues LookupByValues2 LookupByIndices2
      rw [hval, hD]
      simp only [Bool.true_eq_false, if_false]
      simp only [posLoop, vecAt, List.get?_cons_zero, List.get?_cons_succ, ok_bind]
      cases h0 : GetPositionInfo t 0 v0 with
      | error e => simp [h0, error_bind]
      | ok p0 =>
        cases h1 : GetPositionInfo t 1 v1 with
        | error e => simp [h0, h1, ok_bind, error_bind]
        | ok p1 =>
          simp only [h0, h1, ok_bind, error_bind, pure_eq_ok, List.map_cons,
            List.map_nil]
          rw [show (2:ℕ) ^ 2 = 4 from rfl, show List.replicate 2 false = [false, false] from rfl]
          simp only [cornersLoop, inpsOf, nextBits, flipLSB, List.reverse_cons,
            List.reverse_nil, List.nil_append, List.cons_append, List.zipWith_cons_cons,
            List.zipWith_nil_right, if_true, if_false, Nat.add_zero, ite_true, ite_false,
            Bool.false_eq_true, Nat.add_eq]
          cases hA : LookupByIndices t [p0.1, p1.1] with
          | error e => simp [hA, error_bind, ok_bind]
          | ok a =>
            cases hB : LookupByIndices t [p0.1, p1.1 + 1] with
            | error e => simp [hA, hB, error_bind, ok_bind]
            | ok b =>
              cases hC : LookupByIndices t [p0.1 + 1, p1.1] with
              | error e => simp [hA, hB, hC, error_bind, ok_bind]
              | ok c =>
                cases hH : LookupByIndices t [p0.1 + 1, p1.1 + 1] with
                | error e => simp [hA, hB, hC, hH, error_bind, ok_bind]
                | ok d =>
                  simp [hA, hB, hC, hH, ok_bind, pure_eq_ok, pairLerp, List.foldr]
  · intro t v0 v1 v2 hD
    cases hval : t.valid with
    | false => simp [LookupByValues3, LookupByValues, hval]
    | true =>
      unfold LookupByValues LookupByValues3 LookupByIndices3
      rw [hval, hD]
      simp only [Bool.true_eq_false, if_false]
      simp only [posLoop, vecAt, List.get?_cons_zero, List.get?_cons_succ, ok_bind]
      cases h0 : GetPositionInfo t 0 v0 with
      | error e => simp [h0, error_bind]
      | ok p0 =>
        cases h1 : GetPositionInfo t 1 v1 with
        | error e => simp [h0, h1, ok_bind, error_bind]
        | ok p1 =>
          cases h2 : GetPositionInfo t 2 v2 with
          | error e => simp [h0, h1, h2, ok_bind, error_bind]
          | ok p2 =>
            simp only [h0, h1, h2, ok_bind, error_bind, pure_eq_ok, List.map_cons,
              List.map_nil]
            rw [show (2:ℕ) ^ 3 = 8 from rfl,
              show List.replicate 3 false = [false, false, false] from rfl]
            simp only [cornersLoop, inpsOf, nextBits, flipLSB, List.reverse_cons,
              List.reverse_nil, List.nil_append, List.cons_append,
              List.zipWith_cons_cons, List.zipWith_nil_right, if_true, if_false,
              Nat.add_zero, ite_true, ite_false, Bool.false_eq_true, Nat.add_eq]
            cases hA : LookupByIndices t [p0.1, p1.1, p2.1] with
            | error e => simp [hA, error_bind, ok_bind]
            | ok a =>
              cases hB : LookupByIndices t [p0.1, p1.1, p2.1 + 1] with
              | error e => simp [hA, hB, error_bind, ok_bind]
              | ok b =>
                cases hC : LookupByIndices t [p0.1, p1.1 + 1, p2.1] with
                | error e => simp [hA, hB, hC, error_bind, ok_bind]
                | ok c =>
                  cases hE : LookupByIndices t [p0.1, p1.1 + 1, p2.1 + 1] with
                  | error e => simp [hA, hB, hC, hE, error_bind, ok_bind]
                  | ok d =>
                    cases hF : LookupByIndices t [p0.1 + 1, p1.1, p2.1] with
                    | error e => simp [hA, hB, hC, hE, hF, error_bind, ok_bind]
                    | ok f =>
                      cases hG : LookupByIndices t [p0.1 + 1, p1.1, p2.1 + 1] with
                      | error e => simp [hA, hB, hC, hE, hF, hG, error_bind, ok_bind]
                      | ok g =>
                        cases hH : LookupByIndices t [p0.1 + 1, p1.1 + 1, p2.1] with
                        | error e =>
                          simp [hA, hB, hC, hE, hF, hG, hH, error_bind, ok_bind]
                        | ok hh =>
                          cases hI : LookupByIndices t [p0.1 + 1, p1.1 + 1, p2.1 + 1] with
                          | error e =>
                            simp [hA, hB, hC, hE, hF, hG, hH, hI, error_bind, ok_bind]
                          | ok ii =>
                            simp [hA, hB, hC, hE, hF, hG, hH, hI, ok_bind,
                              pure_eq_ok, pairLerp, List.foldr]

/-- Witness for C7 on the C1 table and the 2×2×2 table. -/
theorem c7_unrolled_equiv_witness :
    LookupByValues2 scen2 (3/2) 10 = LookupByValues scen2 [3/2, 10] ∧
    LookupByValues3 scen3 (1/2) (1/2) (1/2)
      = LookupByValues scen3 [1/2, 1/2, 1/2] :=
  ⟨c7_unrolled_equiv.1 scen2 (3/2) 10 (by decide),
   c7_unrolled_equiv.2 scen3 (1/2) (1/2) (1/2) (by decide)⟩

end LookupTable
